import Mathlib

/-!
Verification of the NBitInteger fixed-width two's-complement integer type
from the n_bit_binary repository. The definitions below are a shallow
embedding of the Python class in src/n_bit_binary/n_bit_binary.py (the
maintained revision). Definitions whose names start with `old` embed the
superseded revision in src/n_bit_binary.py at the points where the two
revisions differ. Python ints are unbounded, so numeric fields are Int;
division and remainder on nonnegative operands agree between Python and
Lean's Int operations, and `Int.emod` (always nonnegative for a positive
modulus) matches Python's `%`.
-/

/-- Python exceptions surfaced by the embedded operations. -/
inductive PyErr
  | overflow
  | valueError
  | indexError
  | attributeError
deriving DecidableEq

/-- State of a Python NBitInteger instance: the fields `_signed`, `_bits`,
`_max`, `_min`, `_number` (here `signed`, `bits`, `maxV`, `minV`,
`number`). `_bits` is only ever stored after a positivity check, so it is
a Nat. -/
structure NBitInteger where
  signed : Bool
  bits : Nat
  maxV : Int
  minV : Int
  number : Int
deriving DecidableEq

/-- Truthiness of the Python expression `x & (1 << i)` for an arbitrary
(possibly negative) int `x`: bit `i` of the two's-complement
representation of `x`, which equals `(x mod 2^(i+1)) / 2^i`. Numerator
and divisor are nonnegative, so the division agrees with Python. -/
def pyBit (x : Int) (i : Nat) : Bool :=
  decide (Int.emod x (2 ^ (i + 1)) / 2 ^ i = 1)

/-- Big-endian binary parse, modelling Python `int(s, 2)` applied to a
string of '0'/'1' characters; `true` stands for the character '1'. -/
def intOfBits (l : List Bool) : Int :=
  l.foldl (fun a b => 2 * a + (if b then 1 else 0)) 0

/-- NBitInteger.bit_string (src/n_bit_binary/n_bit_binary.py lines
183-190): for i in reversed(range(bits)) emit the truth of
`number & (1 << i)`; `true` stands for the character '1'. -/
def NBitInteger.bit_string (s : NBitInteger) : List Bool :=
  ((List.range s.bits).reverse).map (pyBit s.number)

/-- NBitInteger.__init__(number, bits, signed) of
src/n_bit_binary/n_bit_binary.py lines 61-77. Note that the unsigned
branch stores `_max = 2 ** bits` (with no `- 1`), and the signed branch
stores `_min = _max * -1`. -/
def NBitInteger.init (number : Int) (bits : Int) (signed : Bool) :
    Except PyErr NBitInteger :=
  if bits ≤ 0 then .error .valueError
  else
    let b := bits.toNat
    let maxV : Int := if signed then 2 ^ b / 2 - 1 else 2 ^ b
    let minV : Int := if signed then -maxV else 0
    if number > maxV then .error .overflow
    else if number < minV then .error .overflow
    else .ok ⟨signed, b, maxV, minV, number⟩

/-- The `number` property setter (lines 83-90): validate against the
stored `_max`/`_min` and replace `_number`. -/
def NBitInteger.setNumber (s : NBitInteger) (value : Int) :
    Except PyErr NBitInteger :=
  if value > s.maxV then .error .overflow
  else if value < s.minV then .error .overflow
  else .ok ⟨s.signed, s.bits, s.maxV, s.minV, value⟩

/-- The `bits` property setter (lines 96-114): compute candidate bounds
for the new width (note `temp_min = temp_max * -1 + 1` in the signed
branch, unlike __init__), parse the current bit string as unsigned,
check it against the candidate bounds, then store the new width and
bounds and re-read `_number` from the bit string at the new width. -/
def NBitInteger.setBits (s : NBitInteger) (value : Int) :
    Except PyErr NBitInteger :=
  if value ≤ 0 then .error .valueError
  else
    let v := value.toNat
    let tempMax : Int := if s.signed then 2 ^ v / 2 - 1 else 2 ^ v - 1
    let tempMin : Int := if s.signed then -tempMax + 1 else 0
    let tempValue := intOfBits s.bit_string
    if tempValue > tempMax ∨ tempValue < tempMin then .error .overflow
    else
      let s2 : NBitInteger := ⟨s.signed, v, tempMax, tempMin, s.number⟩
      .ok ⟨s.signed, v, tempMax, tempMin, intOfBits s2.bit_string⟩

/-- The `signed` property setter (lines 120-133): note that the candidate
minimum `temp_min = self._max * -1 + 1` reads the stored `_max`, and on
success only `_signed` is replaced; `_max` and `_min` are left as they
were. -/
def NBitInteger.setSigned (s : NBitInteger) (value : Bool) :
    Except PyErr NBitInteger :=
  let tempMax : Int := if value then 2 ^ s.bits / 2 - 1 else 2 ^ s.bits - 1
  let tempMin : Int := if value then -s.maxV + 1 else 0
  if s.number > tempMax then .error .overflow
  else if s.number < tempMin then .error .overflow
  else .ok ⟨value, s.bits, s.maxV, s.minV, s.number⟩

/-- NBitInteger._set_bit (lines 161-171): `_number |= 1 << offset`, then
for signed instances subtract `2 ** bits` if the result exceeds `_max`.
The OR with a single mask bit adds `2 ^ offset` exactly when that bit of
`_number` is clear. -/
def NBitInteger.setBitRaw (s : NBitInteger) (offset : Nat) : NBitInteger :=
  let n := if pyBit s.number offset then s.number else s.number + 2 ^ offset
  if s.signed = true ∧ n > s.maxV then ⟨s.signed, s.bits, s.maxV, s.minV, n - 2 ^ s.bits⟩
  else ⟨s.signed, s.bits, s.maxV, s.minV, n⟩

/-- NBitInteger._clear_bit (lines 173-181): `_number &= ~(1 << offset)`,
which subtracts `2 ^ offset` exactly when that bit of `_number` is set.
Unlike _set_bit (and unlike the earlier revision), there is no
two's-complement wrap-back afterwards. -/
def NBitInteger.clearBitRaw (s : NBitInteger) (offset : Nat) : NBitInteger :=
  ⟨s.signed, s.bits, s.maxV, s.minV,
    if pyBit s.number offset then s.number - 2 ^ offset else s.number⟩

/-- NBitInteger.__setitem__ (lines 228-250) restricted to an int key,
for which `key = range(key, key + 1)` so `start = key`, `stop = key + 1`
and the loop body runs once. The bounds test is embedded verbatim; note
that for `start < 0` the expression `bits - start` is `bits + |start|`,
which is never negative, so no negative index is ever rejected. The
normalized offset `bits - 1 - i` is nonnegative whenever the bounds test
passes, so `.toNat` is exact. -/
def NBitInteger.setItem (s : NBitInteger) (key : Int) (value : Bool) :
    Except PyErr NBitInteger :=
  let start : Int := key
  let stop : Int := key + 1
  if (start < 0 ∧ (s.bits : Int) - start < 0) ∨ start > (s.bits : Int) - 1
      ∨ (stop < 0 ∧ (s.bits : Int) - stop < 0) ∨ stop > (s.bits : Int) then
    .error .indexError
  else
    let i := if key < 0 then key + (s.bits : Int) else key
    let offset := (s.bits : Int) - 1 - i
    .ok (if value then s.setBitRaw offset.toNat else s.clearBitRaw offset.toNat)

/-- NBitInteger.__getitem__ (lines 195-226) restricted to an int key.
This revision performs no bounds check at all: `key = range(key, key+1)`
has length 1, so the zero-length ValueError is skipped, and the loop body
computes `mask = 1 << (bits - 1 - i)` directly; when the shift amount is
negative Python raises ValueError ("negative shift count"). Otherwise the
single selected bit is returned as `NBitInteger(0, 1)` with `_set_bit(0)`
applied when the bit is set (its state is `⟨true, 1, 0, 0, 0⟩`). -/
def NBitInteger.getItem (s : NBitInteger) (key : Int) :
    Except PyErr NBitInteger :=
  let i := if key < 0 then key + (s.bits : Int) else key
  let shift := (s.bits : Int) - 1 - i
  if shift < 0 then .error .valueError
  else
    let rv : NBitInteger := ⟨true, 1, 0, 0, 0⟩
    .ok (if pyBit s.number shift.toNat then rv.setBitRaw 0 else rv)

/-- NBitInteger.__repr__ (lines 258-259): the string
`"NBitInteger(" + str(number) + ", " + str(bits) + ")"`. The `signed`
flag is not printed. -/
def NBitInteger.reprStr (s : NBitInteger) : String :=
  "NBitInteger(" ++ toString s.number ++ ", " ++ toString s.bits ++ ")"

/-- Re-evaluation of the constructor call printed by `reprStr`: Python
`eval("NBitInteger(a, b)")` calls `NBitInteger(a, b)`, whose `signed`
parameter takes its default value True. -/
def NBitInteger.evalRepr (s : NBitInteger) : Except PyErr NBitInteger :=
  NBitInteger.init s.number (s.bits : Int) true

/-- NBitInteger.__neg__ (lines 378-387). For a signed instance it
reconstructs with the negated number. For an unsigned instance it
reconstructs as a *signed* instance when `-number < 0`, and otherwise
falls off the end of the function, which in Python returns None (modelled
as `none`). -/
def NBitInteger.neg (s : NBitInteger) : Except PyErr (Option NBitInteger) :=
  if s.signed then
    (NBitInteger.init (-s.number) (s.bits : Int) s.signed).map some
  else if -s.number < 0 then
    (NBitInteger.init (-s.number) (s.bits : Int) true).map some
  else .ok none

/-- NBitInteger.__init__ of the superseded revision src/n_bit_binary.py
lines 37-53: there the signed branch stores `_min = _max * -1 + 1` and
the unsigned branch stores `_max = 2 ** bits - 1`. -/
def NBitInteger.oldInit (number : Int) (bits : Int) (signed : Bool) :
    Except PyErr NBitInteger :=
  if bits ≤ 0 then .error .valueError
  else
    let b := bits.toNat
    let maxV : Int := if signed then 2 ^ b / 2 - 1 else 2 ^ b - 1
    let minV : Int := if signed then -maxV + 1 else 0
    if number > maxV then .error .overflow
    else if number < minV then .error .overflow
    else .ok ⟨signed, b, maxV, minV, number⟩

/-- NBitInteger._set_bit of the superseded revision (src/n_bit_binary.py
lines 92-114): normalizes a negative offset, raises IndexError when out
of range, ORs in the mask, then wraps signed results back into range in
both directions. In the unsigned branch the second comparison reads
`self.min`, an attribute that does not exist, so reaching it raises
AttributeError. -/
def NBitInteger.oldSetBit (s : NBitInteger) (offset : Int) :
    Except PyErr NBitInteger :=
  let off := if offset < 0 then offset + (s.bits : Int) else offset
  if off > (s.bits : Int) - 1 ∨ off < 0 then .error .indexError
  else
    let n := if pyBit s.number off.toNat then s.number
             else s.number + 2 ^ off.toNat
    if s.signed = true then
      if n > s.maxV then .ok ⟨s.signed, s.bits, s.maxV, s.minV, n - 2 ^ s.bits⟩
      else if n < s.minV then .ok ⟨s.signed, s.bits, s.maxV, s.minV, n + 2 ^ s.bits⟩
      else .ok ⟨s.signed, s.bits, s.maxV, s.minV, n⟩
    else
      if n > s.maxV then .error .overflow
      else .error .attributeError

/-- NBitInteger._clear_bit of the superseded revision (src/n_bit_binary.py
lines 116-138): same structure as oldSetBit but with `&= ~(1 << offset)`,
and crucially it wraps a signed result back into range (the maintained
revision dropped this wrap-back). The unsigned branch has the same
missing-attribute access as oldSetBit. -/
def NBitInteger.oldClearBit (s : NBitInteger) (offset : Int) :
    Except PyErr NBitInteger :=
  let off := if offset < 0 then offset + (s.bits : Int) else offset
  if off > (s.bits : Int) - 1 ∨ off < 0 then .error .indexError
  else
    let n := if pyBit s.number off.toNat then s.number - 2 ^ off.toNat
             else s.number
    if s.signed = true then
      if n > s.maxV then .ok ⟨s.signed, s.bits, s.maxV, s.minV, n - 2 ^ s.bits⟩
      else if n < s.minV then .ok ⟨s.signed, s.bits, s.maxV, s.minV, n + 2 ^ s.bits⟩
      else .ok ⟨s.signed, s.bits, s.maxV, s.minV, n⟩
    else
      if n > s.maxV then .error .overflow
      else .error .attributeError

/-- Representable maximum prescribed by the specification, modelled from
the spec: signed max is `2^(width-1) - 1`, unsigned max is
`2^width - 1`. -/
def specMaxValue (width : Nat) (signed : Bool) : Int :=
  if signed then 2 ^ (width - 1) - 1 else 2 ^ width - 1

/-- Representable minimum prescribed by the specification, modelled from
the spec: signed min is `-(2^(width-1) - 1)`, unsigned min is 0. -/
def specMinValue (width : Nat) (signed : Bool) : Int :=
  if signed then -(2 ^ (width - 1) - 1) else 0

/-- Folding the binary parse from an arbitrary accumulator shifts the
accumulator past the remaining digits. -/
theorem intOfBits_foldl (l : List Bool) (a : Int) :
    l.foldl (fun acc b => 2 * acc + (if b then 1 else 0)) a
      = a * 2 ^ l.length
        + l.foldl (fun acc b => 2 * acc + (if b then 1 else 0)) 0 := by
  induction l generalizing a with
  | nil => simp
  | cons c l ih =>
    simp only [List.foldl_cons, List.length_cons]
    rw [ih (2 * a + if c then 1 else 0), ih (2 * 0 + if c then 1 else 0)]
    ring

/-- Parsing the big-endian bit string of the low `b` bits of `x` recovers
`x mod 2^b`, the unsigned reading of the two's-complement pattern. This
is the semantic content of `int(self.bit_string(), 2)`. -/
theorem intOfBits_range_pyBit (x : Int) (b : Nat) :
    intOfBits (((List.range b).reverse).map (pyBit x)) = Int.emod x (2 ^ b) := by
  induction b with
  | zero =>
    simp only [List.range_zero, List.reverse_nil, List.map_nil, pow_zero]
    unfold intOfBits
    simp only [List.foldl_nil]
    show (0:Int) = x % 1
    omega
  | succ b ih =>
    rw [List.range_succ, List.reverse_append]
    simp only [List.reverse_cons, List.reverse_nil, List.nil_append,
      List.singleton_append, List.map_cons]
    unfold intOfBits
    rw [List.foldl_cons, intOfBits_foldl]
    simp only [List.length_map, List.length_reverse, List.length_range]
    have hrest : intOfBits (((List.range b).reverse).map (pyBit x))
        = Int.emod x (2 ^ b) := ih
    unfold intOfBits at hrest
    rw [hrest]
    have h2 : (0:Int) < 2 ^ (b + 1) := by positivity
    have h2b : (0:Int) < 2 ^ b := by positivity
    have hr0 : 0 ≤ Int.emod x (2 ^ (b + 1)) := Int.emod_nonneg x (ne_of_gt h2)
    have hr1 : Int.emod x (2 ^ (b + 1)) < 2 ^ (b + 1) := Int.emod_lt_of_pos x h2
    have hmm : Int.emod x (2 ^ (b + 1)) % 2 ^ b = Int.emod x (2 ^ b) :=
      Int.emod_emod_of_dvd x ⟨2, by ring⟩
    have hq : 2 ^ b * (Int.emod x (2 ^ (b + 1)) / 2 ^ b)
        + Int.emod x (2 ^ (b + 1)) % 2 ^ b = Int.emod x (2 ^ (b + 1)) :=
      Int.ediv_add_emod _ _
    have hq0 : 0 ≤ Int.emod x (2 ^ (b + 1)) / 2 ^ b :=
      Int.ediv_nonneg hr0 (le_of_lt h2b)
    have hq2 : Int.emod x (2 ^ (b + 1)) / 2 ^ b < 2 := by
      rw [Int.ediv_lt_iff_lt_mul h2b]
      calc Int.emod x (2 ^ (b + 1)) < 2 ^ (b + 1) := hr1
        _ = 2 * 2 ^ b := by ring
    have hcases : Int.emod x (2 ^ (b + 1)) / 2 ^ b = 0
        ∨ Int.emod x (2 ^ (b + 1)) / 2 ^ b = 1 := by omega
    unfold pyBit
    rcases hcases with h | h <;> rw [h] at hq <;> simp [h] <;> omega

/-- The bit-string re-parse of a state is the unsigned reading of the low
`bits` bits of its stored number. -/
theorem bit_string_val (s : NBitInteger) :
    intOfBits s.bit_string = Int.emod s.number (2 ^ s.bits) :=
  intOfBits_range_pyBit s.number s.bits

/-- Claim C1: the specification's invariant
`min_value(width, signed) ≤ value ≤ max_value(width, signed)` is claimed
to hold after every public operation that completes without error. The
code violates it at construction already: the unsigned constructor
stores `_max = 2 ** bits` (a missing `- 1`), so `NBitInteger(256, 8,
signed=False)` completes and leaves `value = 256`, above the unsigned
8-bit maximum 255 prescribed by the spec (and used by the code's own
`bits` setter and by the superseded revision). -/
theorem C1_invariant_fails_at_init :
    NBitInteger.init 256 8 false = .ok ⟨false, 8, 256, 0, 256⟩
    ∧ ¬ ((⟨false, 8, 256, 0, 256⟩ : NBitInteger).number ≤ specMaxValue 8 false) :=
  ⟨rfl, by decide⟩

/-- Claim C2: setting a bit and then clearing it is claimed to restore
the original value. On the maintained revision this fails for the sign
bit of a signed instance: starting from `NBitInteger(5, 16)`, setting
MSB-first bit 0 gives -32763, but clearing it then gives -65531 (not 5),
because `_clear_bit` lost the two's-complement wrap-back that the
superseded revision performs (that revision returns 5, as shown by the
`old` conjuncts). Clearing an already-clear bit (index 1 here) is indeed
a no-op. -/
theorem C2_set_then_clear_not_identity :
    NBitInteger.init 5 16 true = .ok ⟨true, 16, 32767, -32767, 5⟩
    ∧ NBitInteger.setItem ⟨true, 16, 32767, -32767, 5⟩ 0 true
        = .ok ⟨true, 16, 32767, -32767, -32763⟩
    ∧ NBitInteger.setItem ⟨true, 16, 32767, -32767, -32763⟩ 0 false
        = .ok ⟨true, 16, 32767, -32767, -65531⟩
    ∧ (-65531 : Int) ≠ 5
    ∧ NBitInteger.setItem ⟨true, 16, 32767, -32767, 5⟩ 1 false
        = .ok ⟨true, 16, 32767, -32767, 5⟩
    ∧ NBitInteger.oldInit 5 16 true = .ok ⟨true, 16, 32767, -32766, 5⟩
    ∧ NBitInteger.oldSetBit ⟨true, 16, 32767, -32766, 5⟩ 15
        = .ok ⟨true, 16, 32767, -32766, -32763⟩
    ∧ NBitInteger.oldClearBit ⟨true, 16, 32767, -32766, -32763⟩ 15
        = .ok ⟨true, 16, 32767, -32766, 5⟩ :=
  ⟨rfl, rfl, rfl, by decide, rfl, rfl, rfl, rfl⟩

/-- Claim C3, counterexample: widening is claimed to preserve the value
of -1 at width 8 when grown to width 16. In the code, the `bits` setter
finishes with `_number = int(self.bit_string(), 2)` evaluated at the NEW
width while `_number` is still the old (negative) value, so -1 at width
8 widened to 16 becomes 65535, not -1. -/
theorem C3_widen_negative_counterexample :
    NBitInteger.init (-1) 8 true = .ok ⟨true, 8, 127, -127, -1⟩
    ∧ NBitInteger.setBits ⟨true, 8, 127, -127, -1⟩ 16
        = .ok ⟨true, 16, 32767, -32766, 65535⟩
    ∧ (65535 : Int) ≠ -1 :=
  ⟨rfl, rfl, by decide⟩

/-- Claim C4: unsigned construction is claimed to fail with Overflow
exactly outside `[0, 2^width - 1]`, in particular at value `2^width`.
The constructor instead stores `_max = 2 ** bits`, so
`NBitInteger(65536, 16, signed=False)` succeeds (value 65536 above the
spec's unsigned maximum 65535), while 65537 and -1 are rejected. -/
theorem C4_unsigned_accepts_two_pow_width :
    NBitInteger.init 65536 16 false = .ok ⟨false, 16, 65536, 0, 65536⟩
    ∧ ¬ ((65536 : Int) ≤ specMaxValue 16 false)
    ∧ NBitInteger.init 65537 16 false = .error .overflow
    ∧ NBitInteger.init (-1) 16 false = .error .overflow :=
  ⟨rfl, by decide, rfl, rfl⟩

/-- Claim C5: from `NBitInteger(5, 16, signed=True)`, setting MSB-first
bit 0 yields `5 - 2^15 = -32763`; from `NBitInteger(5, 16,
signed=False)`, the same write yields `5 + 2^15 = 32773`. -/
theorem C5_msb_set_scenarios :
    NBitInteger.init 5 16 true = .ok ⟨true, 16, 32767, -32767, 5⟩
    ∧ NBitInteger.setItem ⟨true, 16, 32767, -32767, 5⟩ 0 true
        = .ok ⟨true, 16, 32767, -32767, -32763⟩
    ∧ (-32763 : Int) = 5 - 2 ^ 15
    ∧ NBitInteger.init 5 16 false = .ok ⟨false, 16, 65536, 0, 5⟩
    ∧ NBitInteger.setItem ⟨false, 16, 65536, 0, 5⟩ 0 true
        = .ok ⟨false, 16, 65536, 0, 32773⟩
    ∧ (32773 : Int) = 5 + 2 ^ 15 :=
  ⟨rfl, rfl, by decide, rfl, rfl, by decide⟩

/-- Claim C7: any bit access with `i ≥ width` or `i < -width` is claimed
to fail with IndexError. In the maintained revision: a write at index
-17 on a width-16 instance passes the bounds test (whose negative-index
guard computes `bits - start`, which is never negative), silently sets
phantom raw bit 16 and leaves value 65541, outside the unsigned 16-bit
range; a read at index 16 raises ValueError (Python's negative shift
count), not IndexError, because `__getitem__` has no bounds check; and a
read at index -17 silently returns a 1-bit result instead of raising. -/
theorem C7_oob_index_not_indexerror :
    NBitInteger.init 5 16 false = .ok ⟨false, 16, 65536, 0, 5⟩
    ∧ NBitInteger.setItem ⟨false, 16, 65536, 0, 5⟩ (-17) true
        = .ok ⟨false, 16, 65536, 0, 65541⟩
    ∧ ¬ ((65541 : Int) ≤ specMaxValue 16 false)
    ∧ NBitInteger.getItem ⟨false, 16, 65536, 0, 5⟩ 16 = .error .valueError
    ∧ PyErr.valueError ≠ PyErr.indexError
    ∧ NBitInteger.getItem ⟨false, 16, 65536, 0, 5⟩ (-17) = .ok ⟨true, 1, 0, 0, 0⟩ :=
  ⟨rfl, rfl, by decide, rfl, by decide, rfl⟩

/-- Claim C8, counterexample: the debug string is claimed to round-trip
value, width and signedness for every instance, including unsigned ones.
`__repr__` prints only `NBitInteger(number, bits)`, so re-evaluating the
output of an unsigned instance constructs a *signed* instance (the
constructor's default): for `NBitInteger(5, 16, signed=False)` the
round trip flips signedness, and for `NBitInteger(40000, 16,
signed=False)` the round trip does not construct at all (Overflow). -/
theorem C8_repr_drops_signedness :
    NBitInteger.init 5 16 false = .ok ⟨false, 16, 65536, 0, 5⟩
    ∧ NBitInteger.reprStr ⟨false, 16, 65536, 0, 5⟩ = "NBitInteger(5, 16)"
    ∧ NBitInteger.evalRepr ⟨false, 16, 65536, 0, 5⟩
        = .ok ⟨true, 16, 32767, -32767, 5⟩
    ∧ (⟨true, 16, 32767, -32767, 5⟩ : NBitInteger).signed
        ≠ (⟨false, 16, 65536, 0, 5⟩ : NBitInteger).signed
    ∧ NBitInteger.init 40000 16 false = .ok ⟨false, 16, 65536, 0, 40000⟩
    ∧ NBitInteger.evalRepr ⟨false, 16, 65536, 0, 40000⟩ = .error .overflow :=
  ⟨rfl, rfl, rfl, by decide, rfl, rfl⟩

/-- Claim C9: unsigned negation is claimed to fail with Overflow unless
the negated magnitude is representable, never to switch the result to
signed mode, and never to return an absent result. The code does the
opposite on both counts: `-NBitInteger(5, 8, signed=False)` silently
returns a *signed* instance holding -5, and `-NBitInteger(0, 8,
signed=False)` falls off the end of `__neg__` and returns None. -/
theorem C9_unsigned_neg_misbehaves :
    NBitInteger.init 5 8 false = .ok ⟨false, 8, 256, 0, 5⟩
    ∧ NBitInteger.neg ⟨false, 8, 256, 0, 5⟩ = .ok (some ⟨true, 8, 127, -127, -5⟩)
    ∧ (⟨true, 8, 127, -127, -5⟩ : NBitInteger).signed = true
    ∧ NBitInteger.init 0 8 false = .ok ⟨false, 8, 256, 0, 0⟩
    ∧ NBitInteger.neg ⟨false, 8, 256, 0, 0⟩ = .ok none :=
  ⟨rfl, rfl, rfl, rfl, rfl⟩

/-- Evaluation of bit_string on an explicit state. -/
theorem bit_string_mk (sg : Bool) (b : Nat) (mx mn x : Int) :
    NBitInteger.bit_string ⟨sg, b, mx, mn, x⟩
      = ((List.range b).reverse).map (pyBit x) := rfl

/-- Claim C3, amended part: growing the width via the `bits` setter
always succeeds; the new stored number is the unsigned reading of the
old number's two's-complement pattern at the new width (`number mod
2^new_width`), which equals the old number whenever that number is
nonnegative and fits the old width, but not for negative values. -/
theorem C3_grow_width_always_succeeds (s : NBitInteger) (w : Int)
    (hb : 0 < s.bits) (hw : (s.bits : Int) < w) :
    ∃ t : NBitInteger, s.setBits w = .ok t ∧ t.bits = w.toNat
      ∧ t.number = Int.emod s.number (2 ^ w.toNat)
      ∧ (0 ≤ s.number → s.number < 2 ^ s.bits → t.number = s.number) := by
  have hw0 : ¬ (w ≤ 0) := by omega
  have hbv : s.bits + 1 ≤ w.toNat := by omega
  have htv := bit_string_val s
  have h0 : 0 ≤ intOfBits s.bit_string := by
    rw [htv]; exact Int.emod_nonneg _ (by positivity)
  have h1 : intOfBits s.bit_string < 2 ^ s.bits := by
    rw [htv]; exact Int.emod_lt_of_pos _ (by positivity)
  have hpow2 : (2:Int) ^ s.bits ≤ 2 ^ w.toNat :=
    pow_le_pow_right₀ (by norm_num) (by omega)
  have hpres : 0 ≤ s.number → s.number < 2 ^ s.bits →
      Int.emod s.number (2 ^ w.toNat) = s.number := fun ha hb2 =>
    Int.emod_eq_of_lt ha (lt_of_lt_of_le hb2 hpow2)
  cases hsig : s.signed with
  | false =>
    have heq : s.setBits w
        = .ok ⟨s.signed, w.toNat, 2 ^ w.toNat - 1, 0,
            Int.emod s.number (2 ^ w.toNat)⟩ := by
      unfold NBitInteger.setBits
      rw [if_neg hw0]
      simp only [hsig, Bool.false_eq_true, if_false]
      rw [if_neg (by push_neg; omega)]
      rw [bit_string_mk, intOfBits_range_pyBit]
    exact ⟨_, heq, rfl, rfl, hpres⟩
  | true =>
    have hpow1 : (2:Int) ^ s.bits ≤ 2 ^ (w.toNat - 1) :=
      pow_le_pow_right₀ (by norm_num) (by omega)
    have hhalf : (2:Int) ^ w.toNat / 2 = 2 ^ (w.toNat - 1) := by
      have h2 : (2:Int) ^ w.toNat = 2 ^ (w.toNat - 1) * 2 := by
        rw [← pow_succ]; congr 1; omega
      rw [h2, Int.mul_ediv_cancel _ (by norm_num)]
    have hmax1 : (1:Int) ≤ 2 ^ w.toNat / 2 - 1 := by
      rw [hhalf]
      have : (2:Int) ^ 1 ≤ 2 ^ (w.toNat - 1) :=
        pow_le_pow_right₀ (by norm_num) (by omega)
      simp at this
      omega
    have heq : s.setBits w
        = .ok ⟨s.signed, w.toNat, 2 ^ w.toNat / 2 - 1,
            -(2 ^ w.toNat / 2 - 1) + 1, Int.emod s.number (2 ^ w.toNat)⟩ := by
      unfold NBitInteger.setBits
      rw [if_neg hw0]
      simp only [hsig, if_true]
      rw [if_neg (by push_neg; rw [hhalf]; omega)]
      rw [bit_string_mk, intOfBits_range_pyBit]
    exact ⟨_, heq, rfl, rfl, hpres⟩

/-- Witness for C3_grow_width_always_succeeds at the concrete instance
`NBitInteger(5, 8)` widened to 16 bits: the operation succeeds and the
value 5 is preserved. -/
theorem C3_grow_width_always_succeeds_witness :
    ∃ t : NBitInteger, NBitInteger.setBits ⟨true, 8, 127, -127, 5⟩ 16 = .ok t
      ∧ t.bits = (16 : Int).toNat
      ∧ t.number = Int.emod 5 (2 ^ (16 : Int).toNat)
      ∧ (0 ≤ (5:Int) → (5:Int) < 2 ^ (8:Nat) → t.number = 5) :=
  C3_grow_width_always_succeeds ⟨true, 8, 127, -127, 5⟩ 16 (by decide) (by decide)

/-- Claim C6, counterexample: as stated for every instance, the claim
fails on signed narrowing. `NBitInteger(0, 8, signed=True).bits = 1`
raises OverflowError — the candidate bounds are `temp_max = 0`,
`temp_min = -temp_max + 1 = 1`, so the bit-pattern value 0 is below
`temp_min` — although the pattern 0 fits in 1 bit and no set high-order
bit would be discarded. Likewise signed `NBitInteger(5, 16).bits = 3`
raises OverflowError although the pattern 101 fits in 3 bits. -/
theorem C6_signed_narrow_counterexample :
    NBitInteger.init 0 8 true = .ok ⟨true, 8, 127, -127, 0⟩
    ∧ NBitInteger.setBits ⟨true, 8, 127, -127, 0⟩ 1 = .error .overflow
    ∧ (0 : Int) < 2 ^ (1 : Nat)
    ∧ NBitInteger.init 5 16 true = .ok ⟨true, 16, 32767, -32767, 5⟩
    ∧ NBitInteger.setBits ⟨true, 16, 32767, -32767, 5⟩ 3 = .error .overflow
    ∧ (5 : Int) < 2 ^ (3 : Nat) :=
  ⟨rfl, rfl, by decide, rfl, rfl, by decide⟩

/-- Claim C6, amended part: narrowing an *unsigned* instance via the
`bits` setter succeeds and preserves the stored value exactly when that
value fits in the new width (`number < 2^new_width`, i.e. no set
high-order bit is discarded), and otherwise fails with Overflow,
returning no mutated state. For signed instances narrowing can fail
even when the bit pattern fits (see the counterexample above). -/
theorem C6_unsigned_narrow (s : NBitInteger) (w : Int) (hs : s.signed = false)
    (h0 : 0 ≤ s.number) (h1 : s.number < 2 ^ s.bits)
    (hw0 : 0 < w) (hw : w < (s.bits : Int)) :
    (s.number < 2 ^ w.toNat →
        s.setBits w = .ok ⟨s.signed, w.toNat, 2 ^ w.toNat - 1, 0, s.number⟩)
    ∧ (2 ^ w.toNat ≤ s.number → s.setBits w = .error .overflow) := by
  have hw0' : ¬ (w ≤ 0) := by omega
  have htv : intOfBits s.bit_string = s.number := by
    rw [bit_string_val s]; exact Int.emod_eq_of_lt h0 h1
  constructor
  · intro hlt
    unfold NBitInteger.setBits
    rw [if_neg hw0']
    simp only [hs, Bool.false_eq_true, if_false]
    rw [htv]
    rw [if_neg (by push_neg; omega)]
    rw [bit_string_mk, intOfBits_range_pyBit]
    rw [show Int.emod s.number (2 ^ w.toNat) = s.number from
      Int.emod_eq_of_lt h0 hlt]
  · intro hge
    unfold NBitInteger.setBits
    rw [if_neg hw0']
    simp only [hs, Bool.false_eq_true, if_false]
    rw [htv]
    rw [if_pos (Or.inl (by omega))]

/-- Witness for C6_unsigned_narrow at the claim's two scenarios:
`NBitInteger(5, 16, signed=False)` narrowed to 3 bits succeeds keeping
value 5, and `NBitInteger(128, 8, signed=False)` narrowed to 7 bits
fails with Overflow. -/
theorem C6_unsigned_narrow_witness :
    NBitInteger.init 5 16 false = .ok ⟨false, 16, 65536, 0, 5⟩
    ∧ NBitInteger.setBits ⟨false, 16, 65536, 0, 5⟩ 3 = .ok ⟨false, 3, 7, 0, 5⟩
    ∧ NBitInteger.init 128 8 false = .ok ⟨false, 8, 256, 0, 128⟩
    ∧ NBitInteger.setBits ⟨false, 8, 256, 0, 128⟩ 7 = .error .overflow :=
  ⟨rfl,
   (C6_unsigned_narrow ⟨false, 16, 65536, 0, 5⟩ 3 rfl (by decide) (by decide)
      (by decide) (by decide)).1 (by decide),
   rfl,
   (C6_unsigned_narrow ⟨false, 8, 256, 0, 128⟩ 7 rfl (by decide) (by decide)
      (by decide) (by decide)).2 (by decide)⟩

/-- Claim C8, amended part: for a well-formed *signed* instance the debug
string round trip does reconstruct an equal instance: re-evaluating
`NBitInteger(number, bits)` with the constructor's default signed=True
yields the same number, width and signedness. -/
theorem C8_repr_roundtrip_signed (s : NBitInteger) (hs : s.signed = true)
    (hb : 0 < s.bits)
    (hlo : -(2 ^ s.bits / 2 - 1) ≤ s.number)
    (hhi : s.number ≤ 2 ^ s.bits / 2 - 1) :
    s.evalRepr
      = .ok ⟨s.signed, s.bits, 2 ^ s.bits / 2 - 1, -(2 ^ s.bits / 2 - 1),
          s.number⟩ := by
  unfold NBitInteger.evalRepr NBitInteger.init
  rw [if_neg (by omega : ¬ ((s.bits : Int) ≤ 0))]
  simp only [Int.toNat_natCast, if_true, hs]
  rw [if_neg (by omega), if_neg (by omega)]

/-- Witness for C8_repr_roundtrip_signed at `NBitInteger(5, 16)`. -/
theorem C8_repr_roundtrip_signed_witness :
    NBitInteger.evalRepr ⟨true, 16, 32767, -32767, 5⟩
      = .ok ⟨true, 16, 32767, -32767, 5⟩ :=
  C8_repr_roundtrip_signed ⟨true, 16, 32767, -32767, 5⟩ rfl (by decide)
    (by decide) (by decide)

/-- Claim C10: a successful signedness flip replaces only `_signed`; the
stored `_max`/`_min` bounds are NOT recomputed, so subsequent value
assignments keep being validated against the previous signedness's
range. Concretely, flipping `NBitInteger(5, 8)` (signed, bounds
[-127, 127]) to unsigned keeps `_max = 127`, and `number = 200` is then
rejected with Overflow although 200 fits in 8 unsigned bits. -/
theorem C10_stale_bounds_after_signed_flip (s : NBitInteger) (v : Bool)
    (t : NBitInteger) (h : s.setSigned v = .ok t) :
    (t.maxV = s.maxV ∧ t.minV = s.minV ∧ t.bits = s.bits
      ∧ t.number = s.number ∧ t.signed = v)
    ∧ (NBitInteger.init 5 8 true = .ok ⟨true, 8, 127, -127, 5⟩
      ∧ NBitInteger.setSigned ⟨true, 8, 127, -127, 5⟩ false
          = .ok ⟨false, 8, 127, -127, 5⟩
      ∧ NBitInteger.setNumber ⟨false, 8, 127, -127, 5⟩ 200 = .error .overflow
      ∧ (0 : Int) ≤ 200 ∧ (200 : Int) ≤ specMaxValue 8 false) := by
  constructor
  · cases v with
    | true =>
      simp only [NBitInteger.setSigned, if_true] at h
      split at h
      · exact absurd h (by simp)
      · split at h
        · exact absurd h (by simp)
        · injection h with h
          subst h
          exact ⟨rfl, rfl, rfl, rfl, rfl⟩
    | false =>
      simp only [NBitInteger.setSigned, Bool.false_eq_true, if_false] at h
      split at h
      · exact absurd h (by simp)
      · split at h
        · exact absurd h (by simp)
        · injection h with h
          subst h
          exact ⟨rfl, rfl, rfl, rfl, rfl⟩
  · exact ⟨rfl, rfl, rfl, by decide, by decide⟩

/-- Witness for C10_stale_bounds_after_signed_flip at the concrete flip
of `NBitInteger(5, 8)` from signed to unsigned. -/
theorem C10_stale_bounds_after_signed_flip_witness :
    ((127 : Int) = 127 ∧ (-127 : Int) = -127 ∧ (8 : Nat) = 8
      ∧ (5 : Int) = 5 ∧ false = false)
    ∧ (NBitInteger.init 5 8 true = .ok ⟨true, 8, 127, -127, 5⟩
      ∧ NBitInteger.setSigned ⟨true, 8, 127, -127, 5⟩ false
          = .ok ⟨false, 8, 127, -127, 5⟩
      ∧ NBitInteger.setNumber ⟨false, 8, 127, -127, 5⟩ 200 = .error .overflow
      ∧ (0 : Int) ≤ 200 ∧ (200 : Int) ≤ specMaxValue 8 false) :=
  C10_stale_bounds_after_signed_flip ⟨true, 8, 127, -127, 5⟩ false
    ⟨false, 8, 127, -127, 5⟩ rfl
